import Mathlib

/-!
Verification of the media sanitizer pipeline (src/sanitizer.py).

The development shallowly embeds the pipeline orchestrator: the output
path resolution of process_file, the MIME classifier dispatch, the
per-kind sanitization strategies, the external-process supervision loop
with its timeout policy, and the statistics bookkeeping.  Paths are
lists of characters wrapped in String; machine details that are purely
presentational (tqdm progress bars, console rendering, the human
readable size suffix inside log messages) are elided with a comment at
the elision point.  External collaborators (the PIL image codec, the
ffmpeg transcoder process, the ffprobe duration probe, the libmagic
sniffer) enter as explicit inputs of the embedded functions.
-/

/-! ## Configuration (src/sanitizer.py lines 17-22) -/

def INPUT_DIR : String := "/app/input"

def OUTPUT_DIR : String := "/app/output"

def MAX_FILE_SIZE_BYTES : Nat := 2 * 1024 * 1024 * 1024

def MAX_IMAGE_PIXELS : Nat := 200 * 1000 * 1000

def MAX_WORKERS : Nat := 2

/-! ## Event log (log_event, lines 55-91).  Only the structured record
matters here; console rendering and the durable file write (which is
swallowed on failure) are presentational. -/

structure Event where
  etype : String
  msg : String
deriving Repr, DecidableEq

def validEventTypes : List String :=
  ["SYSTEM", "INFO", "SUCCESS", "ERROR", "SECURITY", "WARNING", "SKIP"]

def logEvent (etype msg : String) : Event :=
  if validEventTypes.contains etype then ⟨etype, msg⟩ else ⟨"INFO", msg⟩

/-! ## Statistics (lines 25-43) -/

structure Stats where
  total : Nat
  success : Nat
  failed : List (String × String)
  skipped : Nat
  ignored : Nat
  ignored_files : List String
  t_image : Nat
  t_video : Nat
  t_audio : Nat
  t_gif : Nat
  t_other : Nat
  original_size : Nat
  sanitized_size : Nat
deriving Repr, DecidableEq

def Stats.init : Stats :=
  { total := 0, success := 0, failed := [], skipped := 0, ignored := 0,
    ignored_files := [], t_image := 0, t_video := 0, t_audio := 0,
    t_gif := 0, t_other := 0, original_size := 0, sanitized_size := 0 }

/-! ## Path machinery.  Character-level embeddings of the posixpath
operations the source uses: os.path.join, os.path.dirname,
os.path.basename, os.path.splitext, and the re.sub stem whitelist. -/

def splitSlash : List Char → List (List Char)
  | [] => [[]]
  | c :: cs =>
    if c = '/' then [] :: splitSlash cs
    else
      match splitSlash cs with
      | [] => [[c]]
      | s :: ss => (c :: s) :: ss

def joinSegs : List (List Char) → List Char
  | [] => []
  | [s] => s
  | s :: ss => s ++ '/' :: joinSegs ss

/-- posixpath.join for two components: an absolute second component
discards the first; otherwise a separator is inserted unless the first
component is empty or already ends with one. -/
def pyJoinL (a b : List Char) : List Char :=
  if b.head? = some '/' then b
  else if a = [] ∨ a.getLast? = some '/' then a ++ b
  else a ++ '/' :: b

/-- posixpath.basename: everything after the last slash. -/
def basenameL (p : List Char) : List Char :=
  (p.reverse.takeWhile (fun c => c ≠ '/')).reverse

/-- posixpath.dirname: everything before the last slash, with trailing
slashes stripped unless the head consists only of slashes. -/
def dirnameL (p : List Char) : List Char :=
  let base := p.reverse.takeWhile (fun c => c ≠ '/')
  let head := p.take (p.length - base.length)
  if head.all (fun c => c = '/') then head
  else (head.reverse.dropWhile (fun c => c = '/')).reverse

/-- posixpath.splitext restricted to slash-free names (the source only
applies it to a basename): split at the last dot provided some non-dot
character precedes it. -/
def splitextL (p : List Char) : List Char × List Char :=
  let extRev := p.reverse.takeWhile (fun c => c ≠ '.')
  if extRev.length = p.length then (p, [])
  else
    let dotIdx := p.length - extRev.length - 1
    if (p.take dotIdx).any (fun c => c ≠ '.') then (p.take dotIdx, p.drop dotIdx)
    else (p, [])

/-- The character class kept by re.sub(r'[^a-zA-Z0-9._-]', '_', stem)
(line 393). -/
def isAllowedChar (c : Char) : Bool :=
  ('a' ≤ c && c ≤ 'z') || ('A' ≤ c && c ≤ 'Z') || ('0' ≤ c && c ≤ '9') ||
  c = '.' || c = '_' || c = '-'

def sanitizeStemL (s : List Char) : List Char :=
  s.map (fun c => if isAllowedChar c then c else '_')

/-- ASCII fragment of str.lower, which is all the source ever compares
against. -/
def lowerL (s : List Char) : List Char := s.map Char.toLower

def pyJoin (a b : String) : String := ⟨pyJoinL a.data b.data⟩

def pyBasename (p : String) : String := ⟨basenameL p.data⟩

def pyDirname (p : String) : String := ⟨dirnameL p.data⟩

def sanitizeStem (s : String) : String := ⟨sanitizeStemL s.data⟩

def pySplitextStem (s : String) : String := ⟨(splitextL s.data).1⟩

def pySplitextExt (s : String) : String := ⟨(splitextL s.data).2⟩

/-- Extension choice of the image branch (lines 414-416): the original
name's extension lowercased, kept only when whitelisted, else .png. -/
def imageExtChoice (base_name : String) : String :=
  let ext : String := ⟨lowerL (splitextL base_name.data).2⟩
  if [".jpg", ".jpeg", ".png", ".webp", ".bmp"].contains ext then ext
  else ".png"

/-! ## Classifier (lines 380-384) -/

def pyStartswith (pre s : String) : Bool := pre.data.isPrefixOf s.data

def categorize (mime : String) : String :=
  if mime = "image/gif" then "gif"
  else if pyStartswith "video/" mime then "video"
  else if pyStartswith "audio/" mime then "audio"
  else if pyStartswith "image/" mime then "image"
  else "other"

/-- The dispatch rule in the order the specification words it: GIF,
then video, then image, then audio, then unsupported. -/
def classifySpecOrder (mime : String) : String :=
  if mime = "image/gif" then "gif"
  else if pyStartswith "video/" mime then "video"
  else if pyStartswith "image/" mime then "image"
  else if pyStartswith "audio/" mime then "audio"
  else "other"

/-! ## Timeout policy (lines 177-181, 246-249, 314).  Durations are
rationals; a probe failure is none, and Python float truthiness makes a
probed 0.0 take the default branch. -/

def videoTimeoutLimit : Option Rat → Rat
  | some v => if v ≠ 0 then max 3600 (v * 5) else 3600
  | none => 3600

def audioTimeoutLimit : Option Rat → Rat
  | some v => if v ≠ 0 then max 3600 (v * 5) else 3600
  | none => 3600

def gifTimeoutLimit : Rat := 300

/-! ## Process supervision loop (lines 183-215 and the audio and GIF
copies).  One loop iteration observes the elapsed wall-clock time at
the timeout check at the top of the loop body, the stderr line the
blocking readline then returned (none encodes the empty read at stream
end), and the poll result (none while the process runs).  A finite
observation list records exactly the iterations whose readline
returned.  Exhausting the list means the process emits nothing further
and never exits: the loop is then blocked inside readline, below the
deadline check, which is never reached again - the execution never
completes, and runLoop reports hung.  The deadline can only fire at
the top of an iteration, i.e. after the previous readline returned. -/

structure Obs where
  elapsed : Rat
  line : Option String
  poll : Option Int
deriving Repr, DecidableEq

inductive LoopRes where
  | timedOut
  | broke (returncode : Int)
  | hung
deriving Repr, DecidableEq

def runLoop (limit : Rat) : List Obs → LoopRes
  | [] => .hung
  | o :: rest =>
    if o.elapsed > limit then .timedOut
    else
      match o.line, o.poll with
      | none, some rc => .broke rc
      | _, _ => runLoop limit rest

/-- Observable result of one strategy call.  hung records an execution
that never returns from the supervision loop: for it the remaining
fields describe what is observable while the loop stays blocked -
nothing killed, nothing removed, nothing logged, the partial output
still on disk - and retval is a placeholder kept only so the embedding
stays total. -/
structure StratOut where
  retval : Bool
  events : List Event
  killed : Bool
  removeTried : Bool
  outputExists : Bool
  savedFormat : Option String
  hung : Bool := false
deriving Repr, DecidableEq

/-- Shared shape of the three supervised strategies: when a deadline
check fires the process is killed, a SECURITY event logged, and the
partial output removed best-effort (removeOk false models an os.remove
that raised and was swallowed); on a zero exit code a SUCCESS event,
otherwise an ERROR event with the remaining stderr detail.  A hung
execution (process alive but silent) never reaches any of these: the
loop blocks in readline forever. -/
def superviseProc (limit : Rat) (timeoutMsg okMsg failMsg : String)
    (obs : List Obs) (partFile removeOk : Bool) : StratOut :=
  match runLoop limit obs with
  | .timedOut =>
    { retval := false
      events := [logEvent "SECURITY" timeoutMsg]
      killed := true
      removeTried := partFile
      outputExists := partFile && !removeOk
      savedFormat := none }
  | .broke rc =>
    if rc = 0 then
      { retval := true, events := [logEvent "SUCCESS" okMsg], killed := false,
        removeTried := false, outputExists := true, savedFormat := none }
    else
      { retval := false, events := [logEvent "ERROR" failMsg], killed := false,
        removeTried := false, outputExists := partFile, savedFormat := none }
  | .hung =>
    { retval := false
      events := []
      killed := false
      removeTried := false
      outputExists := partFile
      savedFormat := none
      hung := true }

/-! ## The image codec and the exceptions it raises -/

inductive PyExn where
  | decompressionBomb (msg : String)
  | other (msg : String)
deriving Repr, DecidableEq

def PyExn.msg : PyExn → String
  | .decompressionBomb m => m
  | .other m => m

/-- Source image as the codec sees it: decoded dimensions, the format
PIL detects from the content (independent of the file name), and an
optional decode failure. -/
structure SourceImage where
  width : Nat
  height : Nat
  format : Option String
  corrupt : Option String
deriving Repr, DecidableEq

instance : Inhabited SourceImage := ⟨⟨0, 0, none, none⟩⟩

structure DecodedImage where
  format : Option String
deriving Repr, DecidableEq

/-- Modelled from the spec: the external image codec (PIL), which is
not part of src/.  Per the collaborator interface of the specification,
decode yields a distinguished too-many-pixels error when the decoded
pixel count exceeds the configured ceiling (which line 46 of the source
sets to MAX_IMAGE_PIXELS), and an ordinary error on corrupt input.
PIL.Image.DecompressionBombError subclasses Exception, which is what
the decompressionBomb constructor records. -/
def pilOpen (src : SourceImage) : Except PyExn DecodedImage :=
  match src.corrupt with
  | some m => .error (.other m)
  | none =>
    if src.width * src.height > MAX_IMAGE_PIXELS then
      .error (.decompressionBomb "Image size exceeds pixel ceiling")
    else
      .ok { format := src.format }

/-- sanitize_image (lines 115-146).  The whole body sits inside a
try/except Exception block, so every raised exception - including
DecompressionBombError - is caught here, logged as an ERROR event, and
converted to a False return; nothing propagates to the caller.  On a
successful decode the pixels are copied into a fresh container and
saved in the detected format (falling back to PNG when PIL reports
none); the three save branches differ only in encoder options, all with
metadata cleared, so only the chosen format is recorded here.
File-write failures are not modelled; they would be caught by the same
except-Exception block. -/
def sanitize_image (src : SourceImage) : StratOut :=
  match pilOpen src with
  | .error e =>
    { retval := false
      events := [logEvent "ERROR" ("Image sanitization failed: " ++ e.msg)]
      killed := false, removeTried := false, outputExists := false,
      savedFormat := none }
  | .ok img =>
    let output_format := match img.format with
      | some f => f
      | none => "PNG"
    { retval := true
      events := [logEvent "SUCCESS" "Image sanitized successfully"]
      killed := false, removeTried := false, outputExists := true,
      savedFormat := some output_format }

/-! ## Per-task environment: everything the external world contributes
to one process_file call. -/

structure FileEnv where
  isDir : Bool := false
  sizeBytes : Nat := 0
  mime : Option String := none
  uuid8 : String := "deadbeef"
  duration : Option Rat := none
  obs : List Obs := []
  partFile : Bool := false
  removeOk : Bool := true
  errTail : String := ""
  srcImage : SourceImage := default
  outBytes : Nat := 0
deriving Repr, DecidableEq

def sanitize_video (env : FileEnv) : StratOut :=
  superviseProc (videoTimeoutLimit env.duration)
    "Video processing timed out - Cleaning up"
    "Video sanitized successfully"
    ("Video sanitization failed: " ++ env.errTail)
    env.obs env.partFile env.removeOk

def sanitize_audio (env : FileEnv) : StratOut :=
  superviseProc (audioTimeoutLimit env.duration)
    "Audio processing timed out - Cleaning up"
    "Audio sanitized successfully"
    ("Audio sanitization failed: " ++ env.errTail)
    env.obs env.partFile env.removeOk

def sanitize_gif (env : FileEnv) : StratOut :=
  superviseProc gifTimeoutLimit
    "GIF processing timed out - Cleaning up"
    "GIF sanitized successfully"
    "GIF sanitization failed"
    env.obs env.partFile env.removeOk

/-! ## Output path resolution (lines 389-398 and the per-branch joins
at lines 405-421): the sanitized stem with a random fallback when it
comes out empty, joined under the output root mirroring the input's
relative directory, with the strategy-chosen extension appended. -/

def safeBaseName (rel u : String) : String :=
  let stem := sanitizeStem (pySplitextStem (pyBasename rel))
  if stem = "" then "sanitized_" ++ u else stem

def resolvedOutputPath (rel u ext : String) : String :=
  pyJoin (pyJoin OUTPUT_DIR (pyDirname rel)) (safeBaseName rel u ++ ext)

/-! ## process_file (lines 348-448) -/

structure ProcResult where
  stats : Stats
  events : List Event
  calls : List String
  outputPath : Option String
  outputExists : Bool
  savedFormat : Option String
deriving Repr, DecidableEq

/-- Per-kind counter bump (lines 386-387). -/
def addType (st : Stats) (cat : String) : Stats :=
  if cat = "gif" then { st with t_gif := st.t_gif + 1 }
  else if cat = "video" then { st with t_video := st.t_video + 1 }
  else if cat = "audio" then { st with t_audio := st.t_audio + 1 }
  else if cat = "image" then { st with t_image := st.t_image + 1 }
  else { st with t_other := st.t_other + 1 }

/-- One task, end to end.  The calls field traces which collaborators
were invoked (the sniffer and the chosen strategy).  The human readable
format_size suffix inside the size-limit message is presentational and
elided.  The except clauses at lines 428-435 are represented by the
error branch of the strategy result; note that every strategy catches
its own exceptions and therefore always lands in the ok branch. -/
def process_file (rel : String) (env : FileEnv) (st0 : Stats) : ProcResult :=
  if env.isDir then
    { stats := st0, events := [], calls := [], outputPath := none,
      outputExists := false, savedFormat := none }
  else
    let st := { st0 with total := st0.total + 1,
                         original_size := st0.original_size + env.sizeBytes }
    let evs := [logEvent "INFO" "Processing file"]
    if env.sizeBytes > MAX_FILE_SIZE_BYTES then
      let msg := "File size exceeds limit"
      { stats := { st with skipped := st.skipped + 1,
                           failed := st.failed ++ [(rel, msg)] }
        events := evs ++ [logEvent "SECURITY" msg]
        calls := [], outputPath := none, outputExists := false,
        savedFormat := none }
    else
      let calls1 := ["get_mime_type"]
      match env.mime with
      | none =>
        let msg := "Could not detect MIME type"
        { stats := { st with failed := st.failed ++ [(rel, msg)] }
          events := evs ++ [logEvent "ERROR" msg]
          calls := calls1, outputPath := none, outputExists := false,
          savedFormat := none }
      | some mime =>
        let cat := categorize mime
        let st := addType st cat
        let branch : Option String × Except PyExn StratOut × List String :=
          if cat = "gif" then
            (some (resolvedOutputPath rel env.uuid8 ".gif"),
             .ok (sanitize_gif env), ["sanitize_gif"])
          else if cat = "video" then
            (some (resolvedOutputPath rel env.uuid8 ".mp4"),
             .ok (sanitize_video env), ["sanitize_video"])
          else if cat = "image" then
            (some (resolvedOutputPath rel env.uuid8 (imageExtChoice (pyBasename rel))),
             .ok (sanitize_image env.srcImage), ["sanitize_image"])
          else if cat = "audio" then
            (some (resolvedOutputPath rel env.uuid8 ".m4a"),
             .ok (sanitize_audio env), ["sanitize_audio"])
          else
            (none,
             .ok { retval := false
                   events := [logEvent "WARNING"
                                ("Unsupported file type (" ++ mime ++ ")")]
                   killed := false, removeTried := false,
                   outputExists := false, savedFormat := none },
             [])
        let output_path := branch.1
        let calls2 := calls1 ++ branch.2.2
        match branch.2.1 with
        | .ok r =>
          let success := r.retval
          let error_reason :=
            if cat = "other" then "Unsupported file type (" ++ mime ++ ")"
            else "Unknown error"
          let stEnd :=
            if success then
              { st with success := st.success + 1,
                        sanitized_size := st.sanitized_size +
                          (if output_path.isSome && r.outputExists then
                             env.outBytes else 0) }
            else if cat = "other" then
              { st with ignored := st.ignored + 1,
                        ignored_files := st.ignored_files ++ [rel] }
            else
              { st with failed := st.failed ++ [(rel, error_reason)] }
          { stats := stEnd, events := evs ++ r.events, calls := calls2,
            outputPath := output_path, outputExists := r.outputExists,
            savedFormat := r.savedFormat }
        | .error e =>
          let handled : Event × String :=
            match e with
            | .decompressionBomb _ =>
              (logEvent "SECURITY" "Decompression bomb detected",
               "Decompression bomb detected")
            | .other m =>
              (logEvent "ERROR" ("Unhandled exception: " ++ m),
               "Unhandled exception: " ++ m)
          let stEnd :=
            if cat = "other" then
              { st with ignored := st.ignored + 1,
                        ignored_files := st.ignored_files ++ [rel] }
            else
              { st with failed := st.failed ++ [(rel, handled.2)] }
          { stats := stEnd, events := evs ++ [handled.1], calls := calls2,
            outputPath := output_path, outputExists := false,
            savedFormat := none }

/-! ## Enumeration and the pipeline loop (main, lines 458-484). -/

def hiddenName (rel : String) : Bool :=
  (pyBasename rel).data.head? == some '.'

def enumerateTasks (walk : List String) : List String :=
  (walk.filter (fun r => !(hiddenName r))).mergeSort (fun a b => decide (a ≤ b))

def runPipeline (walk : List String) (envOf : String → FileEnv)
    (st0 : Stats) : Stats :=
  (enumerateTasks walk).foldl (fun st r => (process_file r (envOf r) st).stats) st0

/-! ## Path normalization, used to state what inside the output root
means: lexical resolution of dot and dot-dot segments of an absolute
path, as the file system would resolve the path in the absence of
symlinks. -/

def normStack : List (List Char) → List (List Char) → List (List Char)
  | stack, [] => stack
  | stack, s :: rest =>
    if s = [] ∨ s = ['.'] then normStack stack rest
    else if s = ['.', '.'] then normStack stack.dropLast rest
    else normStack (stack ++ [s]) rest

def normalizeAbs (p : List Char) : List (List Char) := normStack [] (splitSlash p)

def outputRootSegs : List (List Char) := normalizeAbs OUTPUT_DIR.data

def insideOutputRoot (p : String) : Bool :=
  outputRootSegs.isPrefixOf (normalizeAbs p.data)

/-- A clean path segment: nonempty and neither dot nor dot-dot. -/
def cleanSeg (s : List Char) : Bool :=
  !(s == []) && !(s == ['.']) && !(s == ['.', '.'])

/-- A clean relative path: every slash-separated segment is clean.
Every path the enumerator produces (os.walk under the input root plus
os.path.relpath against it) is of this shape. -/
def cleanRel (r : String) : Bool := (splitSlash r.data).all cleanSeg

/-! ## Outcome shapes of the final tally (lines 437-448): which of the
outcome counters moved between the stats before and after one task. -/

abbrev successOutcome (st0 st1 : Stats) : Prop :=
  st1.success = st0.success + 1 ∧ st1.failed = st0.failed ∧
  st1.skipped = st0.skipped ∧ st1.ignored = st0.ignored

abbrev ignoredOutcome (st0 st1 : Stats) : Prop :=
  st1.ignored = st0.ignored + 1 ∧ st1.failed = st0.failed ∧
  st1.skipped = st0.skipped ∧ st1.success = st0.success

abbrev failedOutcome (st0 st1 : Stats) : Prop :=
  st1.failed.length = st0.failed.length + 1 ∧ st1.skipped = st0.skipped ∧
  st1.success = st0.success ∧ st1.ignored = st0.ignored

abbrev sizeSkipOutcome (st0 st1 : Stats) : Prop :=
  st1.skipped = st0.skipped + 1 ∧ st1.failed.length = st0.failed.length + 1 ∧
  st1.success = st0.success ∧ st1.ignored = st0.ignored

/-! ## Concrete environments used by the counterexamples and
witnesses. -/

/-- A small valid GIF whose transcode exits 0 on the first poll. -/
def quickGifEnv : FileEnv :=
  { sizeBytes := 10, mime := some "image/gif", obs := [⟨1, none, some 0⟩] }

/-- A 50000 x 50000 PNG: 2.5 billion decoded pixels, far above the
200 million pixel ceiling. -/
def bombEnv : FileEnv :=
  { sizeBytes := 10485760, mime := some "image/png",
    srcImage := ⟨50000, 50000, some "PNG", none⟩ }

/-- A transcode that emits a line early and another one past every
deadline, with a partial output file on disk: the second iteration's
deadline check fires. -/
def hungEnv : FileEnv :=
  { duration := none,
    obs := [⟨1, some "frame=1", none⟩, ⟨3601, some "frame=2", none⟩],
    partFile := true, removeOk := true }

/-- A transcode that is still running but goes silent: one line at
100 seconds, then nothing more and no exit, with a partial output file
on disk.  The loop blocks in readline forever. -/
def silentHangEnv : FileEnv :=
  { duration := none, obs := [⟨100, some "frame=1", none⟩],
    partFile := true, removeOk := true }

/-- A small valid JPEG image. -/
def smallJpegEnv : FileEnv :=
  { sizeBytes := 10, mime := some "image/jpeg",
    srcImage := ⟨100, 100, some "JPEG", none⟩ }

/-- A file one byte over the 2 GB size ceiling. -/
def oversizedEnv : FileEnv := { sizeBytes := MAX_FILE_SIZE_BYTES + 1 }

/-- A file whose bytes sniff as PDF: no strategy exists for it. -/
def pdfEnv : FileEnv := { sizeBytes := 10, mime := some "application/pdf" }

/-- A file whose content sniff failed. -/
def unsniffableEnv : FileEnv := { sizeBytes := 10, mime := none }

/-- PNG content behind a .jpg file name: the sniffer and the codec both
see PNG, the name says jpg. -/
def pngNamedJpgEnv : FileEnv :=
  { sizeBytes := 10, mime := some "image/png",
    srcImage := ⟨100, 100, some "PNG", none⟩ }

/-! # Helper lemmas -/

theorem logEvent_security (m : String) : logEvent "SECURITY" m = ⟨"SECURITY", m⟩ := rfl

theorem logEvent_error (m : String) : logEvent "ERROR" m = ⟨"ERROR", m⟩ := rfl

theorem logEvent_info (m : String) : logEvent "INFO" m = ⟨"INFO", m⟩ := rfl

theorem logEvent_success (m : String) : logEvent "SUCCESS" m = ⟨"SUCCESS", m⟩ := rfl

theorem logEvent_warning (m : String) : logEvent "WARNING" m = ⟨"WARNING", m⟩ := rfl

@[simp] theorem addType_total (st : Stats) (c : String) :
    (addType st c).total = st.total := by
  unfold addType
  split_ifs <;> rfl

@[simp] theorem addType_success (st : Stats) (c : String) :
    (addType st c).success = st.success := by
  unfold addType
  split_ifs <;> rfl

@[simp] theorem addType_failed (st : Stats) (c : String) :
    (addType st c).failed = st.failed := by
  unfold addType
  split_ifs <;> rfl

@[simp] theorem addType_skipped (st : Stats) (c : String) :
    (addType st c).skipped = st.skipped := by
  unfold addType
  split_ifs <;> rfl

@[simp] theorem addType_ignored (st : Stats) (c : String) :
    (addType st c).ignored = st.ignored := by
  unfold addType
  split_ifs <;> rfl

@[simp] theorem addType_ignored_files (st : Stats) (c : String) :
    (addType st c).ignored_files = st.ignored_files := by
  unfold addType
  split_ifs <;> rfl

/-! # Claim theorems -/

/-- C4: for video and audio the supervision deadline is
max(3600, 5 x probed duration) when the probe succeeds and exactly 3600
when it fails; the GIF deadline is a fixed 300 seconds, independent of
the probed duration. -/
theorem c4_timeout_policy :
    (∀ q : Rat, videoTimeoutLimit (some q) = max 3600 (q * 5)) ∧
    videoTimeoutLimit none = 3600 ∧
    (∀ q : Rat, audioTimeoutLimit (some q) = max 3600 (q * 5)) ∧
    audioTimeoutLimit none = 3600 ∧
    gifTimeoutLimit = 300 ∧
    (∀ (env : FileEnv) (d : Option Rat),
      sanitize_gif { env with duration := d } = sanitize_gif env) := by
  refine ⟨?_, rfl, ?_, rfl, rfl, ?_⟩
  · intro q
    simp only [videoTimeoutLimit]
    by_cases hq : q = 0
    · rw [if_neg (by simp [hq]), hq]
      norm_num
    · rw [if_pos hq]
  · intro q
    simp only [audioTimeoutLimit]
    by_cases hq : q = 0
    · rw [if_neg (by simp [hq]), hq]
      norm_num
    · rw [if_pos hq]
  · intro env d
    rfl

/-- C3, evaluated at the failing input: a transcoder that is still
running when the deadline expires but has stopped emitting stderr
lines is never killed, because the deadline check sits above a
blocking readline (lines 183-194 and the audio and GIF copies) - once
the process goes silent the check is never reached again: no kill, no
cleanup, no SECURITY event, the partial output stays on disk, and the
strategy never returns (hung).  The second half shows the enforcement
the claim describes does happen whenever a deadline check actually
fires, here because a late stderr line lets the loop come back around
to the check. -/
theorem c3_silent_hang_escapes_deadline :
    (sanitize_video silentHangEnv =
      { retval := false, events := [], killed := false, removeTried := false,
        outputExists := true, savedFormat := none, hung := true } ∧
     sanitize_audio silentHangEnv =
      { retval := false, events := [], killed := false, removeTried := false,
        outputExists := true, savedFormat := none, hung := true } ∧
     sanitize_gif silentHangEnv =
      { retval := false, events := [], killed := false, removeTried := false,
        outputExists := true, savedFormat := none, hung := true }) ∧
    (sanitize_video hungEnv =
      { retval := false
        events := [⟨"SECURITY", "Video processing timed out - Cleaning up"⟩]
        killed := true, removeTried := true, outputExists := false,
        savedFormat := none, hung := false } ∧
     sanitize_audio hungEnv =
      { retval := false
        events := [⟨"SECURITY", "Audio processing timed out - Cleaning up"⟩]
        killed := true, removeTried := true, outputExists := false,
        savedFormat := none, hung := false } ∧
     sanitize_gif hungEnv =
      { retval := false
        events := [⟨"SECURITY", "GIF processing timed out - Cleaning up"⟩]
        killed := true, removeTried := true, outputExists := false,
        savedFormat := none, hung := false }) := by decide

/-- C2, evaluated at the failing input: a 50000 x 50000 image (2.5
billion decoded pixels, ceiling 200 million) is never a success and
leaves no output file, but the recorded events are INFO plus a generic
ERROR logged inside sanitize_image, no SECURITY event is emitted, and
the failure reason stored in the stats is the untouched "Unknown
error".  The dedicated SECURITY "Decompression bomb detected" handler
of process_file (line 428) is unreachable for images, because
sanitize_image catches every Exception (line 144) and
DecompressionBombError subclasses Exception. -/
theorem c2_bomb_generic_not_security :
    (process_file "bomb.png" bombEnv Stats.init).stats.success = 0 ∧
    (process_file "bomb.png" bombEnv Stats.init).outputExists = false ∧
    (process_file "bomb.png" bombEnv Stats.init).stats.failed =
      [("bomb.png", "Unknown error")] ∧
    (process_file "bomb.png" bombEnv Stats.init).events =
      [⟨"INFO", "Processing file"⟩,
       ⟨"ERROR", "Image sanitization failed: Image size exceeds pixel ceiling"⟩] ∧
    ((process_file "bomb.png" bombEnv Stats.init).events.all
      (fun e => e.etype != "SECURITY")) = true := by decide

/-- C6: a file over the size ceiling is skipped with a SECURITY event
before the classifier or any strategy runs: the collaborator call trace
is empty, no output path is even computed, and the stats record the
skip (together with the failed-list entry the source also appends). -/
theorem c6_size_limit_before_classifier :
    ∀ (rel : String) (env : FileEnv) (st : Stats),
      env.isDir = false → env.sizeBytes > MAX_FILE_SIZE_BYTES →
      process_file rel env st =
        { stats := { st with total := st.total + 1,
                             original_size := st.original_size + env.sizeBytes,
                             skipped := st.skipped + 1,
                             failed := st.failed ++ [(rel, "File size exceeds limit")] }
          events := [⟨"INFO", "Processing file"⟩,
                     ⟨"SECURITY", "File size exceeds limit"⟩]
          calls := []
          outputPath := none
          outputExists := false
          savedFormat := none } := by
  intro rel env st h1 h2
  simp only [process_file, h1, Bool.false_eq_true, if_false, if_pos h2,
    logEvent_info, logEvent_security, List.cons_append, List.nil_append]

theorem c6_size_limit_before_classifier_witness :
    oversizedEnv.isDir = false ∧ oversizedEnv.sizeBytes > MAX_FILE_SIZE_BYTES ∧
    process_file "big.bin" oversizedEnv Stats.init =
      { stats := { Stats.init with total := 1,
                                   original_size := oversizedEnv.sizeBytes,
                                   skipped := 1,
                                   failed := [("big.bin", "File size exceeds limit")] }
        events := [⟨"INFO", "Processing file"⟩,
                   ⟨"SECURITY", "File size exceeds limit"⟩]
        calls := []
        outputPath := none
        outputExists := false
        savedFormat := none } := by
  refine ⟨rfl, by decide, ?_⟩
  have h := c6_size_limit_before_classifier "big.bin" oversizedEnv Stats.init rfl
    (by decide)
  rw [h]
  rfl

/-- C9: a task whose sniffed type has no strategy invokes no strategy,
creates no output file, and is tallied under ignored (with its path in
the ignored list), never under failed. -/
theorem c9_unsupported_ignored :
    ∀ (rel : String) (env : FileEnv) (st : Stats) (m : String),
      env.isDir = false → ¬ env.sizeBytes > MAX_FILE_SIZE_BYTES →
      env.mime = some m → categorize m = "other" →
      (process_file rel env st).calls = ["get_mime_type"] ∧
      (process_file rel env st).outputPath = none ∧
      (process_file rel env st).outputExists = false ∧
      (process_file rel env st).stats.ignored = st.ignored + 1 ∧
      (process_file rel env st).stats.ignored_files = st.ignored_files ++ [rel] ∧
      (process_file rel env st).stats.failed = st.failed ∧
      (process_file rel env st).stats.success = st.success ∧
      (process_file rel env st).stats.skipped = st.skipped ∧
      (process_file rel env st).events =
        [⟨"INFO", "Processing file"⟩,
         ⟨"WARNING", "Unsupported file type (" ++ m ++ ")"⟩] := by
  intro rel env st m h1 h2 h3 h4
  simp only [process_file, h1, Bool.false_eq_true, if_false, if_neg h2, h3, h4,
    addType, logEvent_info, logEvent_warning, logEvent_error, reduceIte,
    List.cons_append, List.nil_append, List.append_nil]
  refine ⟨rfl, rfl, rfl, rfl, rfl, rfl, rfl, rfl, rfl⟩

theorem c9_unsupported_ignored_witness :
    (process_file "doc.pdf" pdfEnv Stats.init).calls = ["get_mime_type"] ∧
    (process_file "doc.pdf" pdfEnv Stats.init).outputPath = none ∧
    (process_file "doc.pdf" pdfEnv Stats.init).outputExists = false ∧
    (process_file "doc.pdf" pdfEnv Stats.init).stats.ignored = 1 ∧
    (process_file "doc.pdf" pdfEnv Stats.init).stats.ignored_files = ["doc.pdf"] ∧
    (process_file "doc.pdf" pdfEnv Stats.init).stats.failed = [] ∧
    (process_file "doc.pdf" pdfEnv Stats.init).stats.success = 0 := by
  have h := c9_unsupported_ignored "doc.pdf" pdfEnv Stats.init "application/pdf"
    rfl (by decide) rfl (by decide)
  exact ⟨h.1, h.2.1, h.2.2.1, h.2.2.2.1, h.2.2.2.2.1, h.2.2.2.2.2.1,
    h.2.2.2.2.2.2.1⟩

/-- C1 counterexample: a relative path carrying a dot-dot segment is
joined under the output root untouched - nothing rejects or neutralizes
it - and the resulting output path resolves outside the output root. -/
theorem c1_counterexample_traversal :
    (process_file "../evil/x.gif" quickGifEnv Stats.init).outputPath =
      some "/app/output/../evil/x.gif" ∧
    insideOutputRoot "/app/output/../evil/x.gif" = false := by decide

/-- C5 counterexample: two distinct relative paths in the same
directory whose stems differ only in a character outside the whitelist
are both resolved to the very same output path. -/
theorem c5_counterexample_collision :
    ("a b.jpg" : String) ≠ "a_b.jpg" ∧
    (process_file "a b.jpg" smallJpegEnv Stats.init).outputPath =
      some "/app/output/a_b.jpg" ∧
    (process_file "a_b.jpg" smallJpegEnv Stats.init).outputPath =
      some "/app/output/a_b.jpg" := by decide

/-- C8 counterexample: for a file one byte over the size ceiling, two
outcome tallies change for the single task - skipped is incremented and
the failed list grows as well - so it is not the case that exactly one
of the tallies is incremented. -/
theorem c8_counterexample_two_tallies :
    (process_file "big.bin" oversizedEnv Stats.init).stats.skipped ≠
      Stats.init.skipped ∧
    (process_file "big.bin" oversizedEnv Stats.init).stats.failed ≠
      Stats.init.failed := by decide

theorem startswith_excl {p q s : List Char} (hlen : p.length = q.length)
    (hne : p ≠ q) (h1 : p.isPrefixOf s = true) (h2 : q.isPrefixOf s = true) :
    False := by
  have e1 := List.isPrefixOf_iff_prefix.mp h1
  have e2 := List.isPrefixOf_iff_prefix.mp h2
  have t1 := List.prefix_iff_eq_take.mp e1
  have t2 := List.prefix_iff_eq_take.mp e2
  rw [hlen] at t1
  exact hne (t1.trans t2.symm)

/-- C7: the classifier of the source is extensionally the dispatch in
the priority order the specification states (GIF, then video, then
image, then audio, then unsupported) - the two only differ in the
relative order of the mutually exclusive audio and image tests - and a
failed sniff is recorded as a failure with its own reason, with no
strategy invoked and nothing added to the ignored tally. -/
theorem c7_classifier_dispatch :
    (∀ m : String, categorize m = classifySpecOrder m) ∧
    (∀ (rel : String) (env : FileEnv) (st : Stats),
      env.isDir = false → ¬ env.sizeBytes > MAX_FILE_SIZE_BYTES →
      env.mime = none →
      (process_file rel env st).stats.failed =
        st.failed ++ [(rel, "Could not detect MIME type")] ∧
      (process_file rel env st).stats.ignored = st.ignored ∧
      (process_file rel env st).stats.success = st.success ∧
      (process_file rel env st).calls = ["get_mime_type"] ∧
      (process_file rel env st).outputPath = none ∧
      (process_file rel env st).events =
        [⟨"INFO", "Processing file"⟩,
         ⟨"ERROR", "Could not detect MIME type"⟩]) := by
  constructor
  · intro m
    unfold categorize classifySpecOrder
    by_cases hg : m = "image/gif"
    · simp [hg]
    · rw [if_neg hg, if_neg hg]
      by_cases hv : pyStartswith "video/" m
      · rw [if_pos hv, if_pos hv]
      · rw [if_neg hv, if_neg hv]
        by_cases ha : pyStartswith "audio/" m
        · by_cases hi : pyStartswith "image/" m
          · simp only [pyStartswith] at ha hi
            exact (startswith_excl (by decide) (by decide) ha hi).elim
          · rw [if_pos ha, if_neg hi, if_pos ha]
        · by_cases hi : pyStartswith "image/" m
          · rw [if_neg ha, if_pos hi, if_pos hi]
          · rw [if_neg ha, if_neg hi, if_neg hi, if_neg ha]
  · intro rel env st h1 h2 h3
    simp only [process_file, h1, Bool.false_eq_true, if_false, if_neg h2, h3,
      logEvent_info, logEvent_error, List.cons_append, List.nil_append]
    exact ⟨trivial, trivial, trivial, trivial, trivial, trivial⟩

theorem c7_classifier_dispatch_witness :
    categorize "video/mp4" = classifySpecOrder "video/mp4" ∧
    (process_file "noise.bin" unsniffableEnv Stats.init).stats.failed =
      [("noise.bin", "Could not detect MIME type")] ∧
    (process_file "noise.bin" unsniffableEnv Stats.init).stats.ignored = 0 ∧
    (process_file "noise.bin" unsniffableEnv Stats.init).outputPath = none := by
  have h := c7_classifier_dispatch
  have h2 := h.2 "noise.bin" unsniffableEnv Stats.init rfl (by decide) rfl
  exact ⟨h.1 "video/mp4", h2.1, h2.2.1, h2.2.2.2.2.1⟩

/-- C10: the output extension of the image branch is computed from the
original file name alone (lowercased and kept only when in the
whitelist, else .png), while the encoded format is the format the codec
detected in the content (PNG when none is detected); evaluating the
pipeline on PNG content behind the name x.jpg, the written path ends in
.jpg while the encoded format is PNG. -/
theorem c10_extension_vs_format :
    (∀ b : String, imageExtChoice b =
      (if (⟨lowerL (splitextL b.data).2⟩ : String) = ".jpg" ∨
          (⟨lowerL (splitextL b.data).2⟩ : String) = ".jpeg" ∨
          (⟨lowerL (splitextL b.data).2⟩ : String) = ".png" ∨
          (⟨lowerL (splitextL b.data).2⟩ : String) = ".webp" ∨
          (⟨lowerL (splitextL b.data).2⟩ : String) = ".bmp" then
        (⟨lowerL (splitextL b.data).2⟩ : String) else ".png")) ∧
    (∀ src : SourceImage, (sanitize_image src).retval = true →
      (sanitize_image src).savedFormat = some (src.format.getD "PNG")) ∧
    (process_file "x.jpg" pngNamedJpgEnv Stats.init).outputPath =
      some "/app/output/x.jpg" ∧
    (process_file "x.jpg" pngNamedJpgEnv Stats.init).savedFormat =
      some "PNG" ∧
    (process_file "x.jpg" pngNamedJpgEnv Stats.init).stats.success = 1 := by
  refine ⟨?_, ?_, by decide, by decide, by decide⟩
  · intro b
    have hiff : ([".jpg", ".jpeg", ".png", ".webp", ".bmp"].contains
        (⟨lowerL (splitextL b.data).2⟩ : String) = true) ↔
        ((⟨lowerL (splitextL b.data).2⟩ : String) = ".jpg" ∨
         (⟨lowerL (splitextL b.data).2⟩ : String) = ".jpeg" ∨
         (⟨lowerL (splitextL b.data).2⟩ : String) = ".png" ∨
         (⟨lowerL (splitextL b.data).2⟩ : String) = ".webp" ∨
         (⟨lowerL (splitextL b.data).2⟩ : String) = ".bmp") := by
      simp [List.contains]
    unfold imageExtChoice
    simp only [hiff]
  · intro src h
    unfold sanitize_image pilOpen at h ⊢
    cases hc : src.corrupt with
    | some m =>
      rw [hc] at h
      exact Bool.noConfusion h
    | none =>
      rw [hc] at h
      by_cases hpx : src.width * src.height > MAX_IMAGE_PIXELS
      · rw [if_pos hpx] at h
        exact Bool.noConfusion h
      · rw [if_neg hpx]
        cases hf : src.format with
        | some f => rfl
        | none => rfl

theorem c10_extension_vs_format_witness :
    (sanitize_image pngNamedJpgEnv.srcImage).savedFormat = some "PNG" ∧
    imageExtChoice "x.JPG" = ".jpg" := by
  have h := c10_extension_vs_format
  refine ⟨(h.2.1 pngNamedJpgEnv.srcImage (by decide)).trans (by decide), ?_⟩
  rw [h.1 "x.JPG"]
  decide

theorem categorize_cases (m : String) :
    categorize m = "gif" ∨ categorize m = "video" ∨ categorize m = "audio" ∨
    categorize m = "image" ∨ categorize m = "other" := by
  unfold categorize
  split_ifs <;> simp

theorem process_file_total (rel : String) (env : FileEnv) (st : Stats)
    (h : env.isDir = false) :
    (process_file rel env st).stats.total = st.total + 1 := by
  unfold process_file
  simp only [h, Bool.false_eq_true, if_false]
  repeat' split
  all_goals simp

/-- C8 amended: every non-directory task increments total exactly once
and records exactly one outcome - a success, an ignored, or a failure -
except that a size-limit skip moves two tallies at once (skipped is
incremented and a failed-list entry is appended); at pipeline end the
total equals the number of enumerated non-hidden files. -/
theorem c8_amended_outcome_accounting :
    (∀ (rel : String) (env : FileEnv) (st : Stats), env.isDir = false →
      (process_file rel env st).stats.total = st.total + 1 ∧
      (successOutcome st (process_file rel env st).stats ∨
       ignoredOutcome st (process_file rel env st).stats ∨
       failedOutcome st (process_file rel env st).stats ∨
       (env.sizeBytes > MAX_FILE_SIZE_BYTES ∧
        sizeSkipOutcome st (process_file rel env st).stats))) ∧
    (∀ (walk : List String) (envOf : String → FileEnv) (st0 : Stats),
      (∀ r, (envOf r).isDir = false) →
      (runPipeline walk envOf st0).total =
        st0.total + (walk.filter (fun r => !(hiddenName r))).length) := by
  constructor
  · intro rel env st h
    refine ⟨process_file_total rel env st h, ?_⟩
    by_cases hsz : env.sizeBytes > MAX_FILE_SIZE_BYTES
    · refine Or.inr (Or.inr (Or.inr ⟨hsz, ?_, ?_, ?_, ?_⟩)) <;>
        simp [process_file, h, hsz]
    · cases hm : env.mime with
      | none =>
        refine Or.inr (Or.inr (Or.inl ⟨?_, ?_, ?_, ?_⟩)) <;>
          simp [process_file, h, hsz, hm]
      | some mime =>
        rcases categorize_cases mime with hc | hc | hc | hc | hc
        · by_cases hr : (sanitize_gif env).retval = true
          · refine Or.inl ⟨?_, ?_, ?_, ?_⟩ <;>
              simp [process_file, h, hsz, hm, hc, hr]
          · refine Or.inr (Or.inr (Or.inl ⟨?_, ?_, ?_, ?_⟩)) <;>
              simp [process_file, h, hsz, hm, hc, hr]
        · by_cases hr : (sanitize_video env).retval = true
          · refine Or.inl ⟨?_, ?_, ?_, ?_⟩ <;>
              simp [process_file, h, hsz, hm, hc, hr]
          · refine Or.inr (Or.inr (Or.inl ⟨?_, ?_, ?_, ?_⟩)) <;>
              simp [process_file, h, hsz, hm, hc, hr]
        · by_cases hr : (sanitize_audio env).retval = true
          · refine Or.inl ⟨?_, ?_, ?_, ?_⟩ <;>
              simp [process_file, h, hsz, hm, hc, hr]
          · refine Or.inr (Or.inr (Or.inl ⟨?_, ?_, ?_, ?_⟩)) <;>
              simp [process_file, h, hsz, hm, hc, hr]
        · by_cases hr : (sanitize_image env.srcImage).retval = true
          · refine Or.inl ⟨?_, ?_, ?_, ?_⟩ <;>
              simp [process_file, h, hsz, hm, hc, hr]
          · refine Or.inr (Or.inr (Or.inl ⟨?_, ?_, ?_, ?_⟩)) <;>
              simp [process_file, h, hsz, hm, hc, hr]
        · refine Or.inr (Or.inl ⟨?_, ?_, ?_, ?_⟩) <;>
            simp [process_file, h, hsz, hm, hc]
  · intro walk envOf st0 hof
    have hfold : ∀ (l : List String) (st : Stats),
        (l.foldl (fun st r => (process_file r (envOf r) st).stats) st).total =
          st.total + l.length := by
      intro l
      induction l with
      | nil => intro st; simp
      | cons a t ih =>
        intro st
        rw [List.foldl_cons, ih, process_file_total a (envOf a) st (hof a)]
        simp [List.length_cons]
        omega
    unfold runPipeline enumerateTasks
    rw [hfold]
    have hperm := List.mergeSort_perm
      (walk.filter fun r => !(hiddenName r)) (fun a b => decide (a ≤ b))
    rw [hperm.length_eq]

theorem c8_amended_outcome_accounting_witness :
    (process_file "clip.mov" hungEnv Stats.init).stats.total = 1 ∧
    (runPipeline ["b.txt", ".hidden", "a.txt"] (fun _ => pdfEnv)
      Stats.init).total = 2 := by
  have h := c8_amended_outcome_accounting
  refine ⟨(h.1 "clip.mov" hungEnv Stats.init rfl).1, ?_⟩
  rw [h.2 ["b.txt", ".hidden", "a.txt"] (fun _ => pdfEnv) Stats.init
    (fun _ => rfl)]
  decide

/-! ## Path-segment lemmas used by the traversal and collision
claims. -/

theorem splitSlash_ne_nil (l : List Char) : splitSlash l ≠ [] := by
  induction l with
  | nil => simp [splitSlash]
  | cons c cs ih =>
    unfold splitSlash
    by_cases h : c = '/'
    · simp [h]
    · simp only [if_neg h]
      cases hs : splitSlash cs with
      | nil => simp
      | cons s ss => simp

theorem splitSlash_cons_slash (cs : List Char) :
    splitSlash ('/' :: cs) = [] :: splitSlash cs := by
  rw [splitSlash]
  simp

theorem splitSlash_cons_ne (c : Char) (cs : List Char) (h : c ≠ '/')
    (s : List Char) (ss : List (List Char)) (hs : splitSlash cs = s :: ss) :
    splitSlash (c :: cs) = (c :: s) :: ss := by
  rw [splitSlash, if_neg h, hs]

theorem joinSegs_single (s : List Char) : joinSegs [s] = s := rfl

theorem joinSegs_cons (s t : List Char) (ts : List (List Char)) :
    joinSegs (s :: t :: ts) = s ++ '/' :: joinSegs (t :: ts) := rfl

theorem splitSlash_append (xs ys : List Char) :
    splitSlash (xs ++ '/' :: ys) = splitSlash xs ++ splitSlash ys := by
  induction xs with
  | nil => simp [splitSlash]
  | cons c cs ih =>
    rw [List.cons_append]
    by_cases h : c = '/'
    · subst h
      rw [splitSlash_cons_slash, splitSlash_cons_slash, ih, List.cons_append]
    · cases hs : splitSlash cs with
      | nil => exact absurd hs (splitSlash_ne_nil cs)
      | cons s ss =>
        rw [splitSlash_cons_ne c (cs ++ '/' :: ys) h s (ss ++ splitSlash ys)
            (by rw [ih, hs, List.cons_append]),
          splitSlash_cons_ne c cs h s ss hs, List.cons_append]

theorem splitSlash_no_slash (l : List Char) (h : ∀ c ∈ l, c ≠ '/') :
    splitSlash l = [l] := by
  induction l with
  | nil => simp [splitSlash]
  | cons c cs ih =>
    unfold splitSlash
    rw [if_neg (h c (by simp))]
    rw [ih (fun c hc => h c (by simp [hc]))]

theorem mem_splitSlash_no_slash (l : List Char) (s : List Char)
    (hs : s ∈ splitSlash l) : '/' ∉ s := by
  induction l generalizing s with
  | nil =>
    simp [splitSlash] at hs
    simp [hs]
  | cons c cs ih =>
    unfold splitSlash at hs
    by_cases h : c = '/'
    · rw [if_pos h] at hs
      rcases List.mem_cons.mp hs with h1 | h1
      · simp [h1]
      · exact ih s h1
    · rw [if_neg h] at hs
      cases hcs : splitSlash cs with
      | nil => exact absurd hcs (splitSlash_ne_nil cs)
      | cons s0 ss =>
        rw [hcs] at hs
        rcases List.mem_cons.mp hs with h1 | h1
        · subst h1
          intro hmem
          rcases List.mem_cons.mp hmem with h2 | h2
          · exact h h2.symm
          · exact ih s0 (by rw [hcs]; exact List.mem_cons_self s0 ss) h2
        · exact ih s (by rw [hcs]; exact List.mem_cons_of_mem s0 h1)

theorem joinSegs_splitSlash (l : List Char) : joinSegs (splitSlash l) = l := by
  induction l with
  | nil => rfl
  | cons c cs ih =>
    by_cases h : c = '/'
    · subst h
      rw [splitSlash_cons_slash]
      cases hcs : splitSlash cs with
      | nil => exact absurd hcs (splitSlash_ne_nil cs)
      | cons s ss =>
        rw [hcs] at ih
        rw [joinSegs_cons, ← ih]
        rfl
    · cases hcs : splitSlash cs with
      | nil => exact absurd hcs (splitSlash_ne_nil cs)
      | cons s ss =>
        rw [hcs] at ih
        rw [splitSlash_cons_ne c cs h s ss hcs]
        cases ss with
        | nil =>
          rw [joinSegs_single] at ih
          rw [joinSegs_single, ih]
        | cons t ts =>
          rw [joinSegs_cons] at ih
          rw [joinSegs_cons, List.cons_append, ih]

theorem splitSlash_joinSegs (ss : List (List Char)) (hne : ss ≠ [])
    (hfree : ∀ s ∈ ss, ∀ c ∈ s, c ≠ '/') :
    splitSlash (joinSegs ss) = ss := by
  induction ss with
  | nil => exact absurd rfl hne
  | cons s rest ih =>
    cases rest with
    | nil =>
      show splitSlash (joinSegs [s]) = [s]
      rw [joinSegs]
      exact splitSlash_no_slash s (hfree s (by simp))
    | cons t ts =>
      show splitSlash (s ++ '/' :: joinSegs (t :: ts)) = s :: t :: ts
      rw [splitSlash_append,
        splitSlash_no_slash s (hfree s (by simp)),
        ih (by simp) (fun u hu => hfree u (List.mem_cons_of_mem s hu))]
      rfl

theorem joinSegs_concat (init : List (List Char)) (n : List Char)
    (hne : init ≠ []) :
    joinSegs (init ++ [n]) = joinSegs init ++ '/' :: n := by
  induction init with
  | nil => exact absurd rfl hne
  | cons s rest ih =>
    cases rest with
    | nil => rfl
    | cons t ts =>
      have e1 : (s :: t :: ts) ++ [n] = s :: ((t :: ts) ++ [n]) := by simp
      have e2 : (t :: ts) ++ [n] = t :: (ts ++ [n]) := by simp
      rw [e1, e2, joinSegs_cons, ← e2, ih (by simp), joinSegs_cons,
        List.append_assoc]
      rfl

theorem takeWhile_sat (p : Char → Bool) (A : List Char)
    (h : ∀ c ∈ A, p c = true) : A.takeWhile p = A :=
  List.takeWhile_eq_self_iff.mpr h

theorem basenameL_concat (d n : List Char) (hn : ∀ c ∈ n, c ≠ '/') :
    basenameL (d ++ '/' :: n) = n := by
  unfold basenameL
  have e : (d ++ '/' :: n).reverse = n.reverse ++ '/' :: d.reverse := by simp
  rw [e, List.takeWhile_append_of_pos (by
    intro a ha
    simpa using hn a (by simpa using ha)), List.takeWhile_cons]
  simp

theorem basenameL_no_slash (l : List Char) (h : ∀ c ∈ l, c ≠ '/') :
    basenameL l = l := by
  unfold basenameL
  rw [takeWhile_sat _ l.reverse (by
    intro c hc
    simpa using h c (by simpa using hc))]
  simp

theorem dirnameL_no_slash (l : List Char) (h : ∀ c ∈ l, c ≠ '/') :
    dirnameL l = [] := by
  simp only [dirnameL]
  rw [takeWhile_sat _ l.reverse (by
    intro c hc
    simpa using h c (by simpa using hc))]
  simp

theorem dirnameL_concat (d n : List Char) (hd : d ≠ [])
    (hlast : d.getLast? ≠ some '/') (hn : ∀ c ∈ n, c ≠ '/') :
    dirnameL (d ++ '/' :: n) = d := by
  obtain ⟨x, xs, hrev⟩ : ∃ x xs, d.reverse = x :: xs := by
    cases hr : d.reverse with
    | nil => exact absurd (List.reverse_eq_nil_iff.mp hr) hd
    | cons x xs => exact ⟨x, xs, rfl⟩
  have hxlast : d.getLast? = some x := by
    rw [List.getLast?_eq_head?_reverse, hrev]
    rfl
  have hx : x ≠ '/' := fun hc => hlast (by rw [hxlast, hc])
  have e : (d ++ '/' :: n).reverse = n.reverse ++ '/' :: d.reverse := by simp
  have hbase : (d ++ '/' :: n).reverse.takeWhile (fun c => (c ≠ '/' : Bool)) =
      n.reverse := by
    rw [e, List.takeWhile_append_of_pos (by
      intro a ha
      simpa using hn a (by simpa using ha)), List.takeWhile_cons]
    simp
  simp only [dirnameL]
  rw [hbase]
  have hlen : (d ++ '/' :: n).length - n.reverse.length = d.length + 1 := by
    simp
    omega
  have htake : (d ++ '/' :: n).take (d.length + 1) = d ++ ['/'] := by
    have e2 : d ++ '/' :: n = (d ++ ['/']) ++ n := by simp
    rw [e2, List.take_left' (by simp)]
  rw [hlen, htake]
  have hall : ¬ ((d ++ ['/']).all (fun c => (c = '/' : Bool)) = true) := by
    rw [List.all_eq_true]
    intro hforall
    have hmem : x ∈ d ++ ['/'] :=
      List.mem_append_left _ (by
        have hxd : x ∈ d.reverse := by
          rw [hrev]
          exact List.mem_cons_self x xs
        simpa using hxd)
    have hx2 := hforall x hmem
    simp at hx2
    exact hx hx2
  rw [if_neg hall]
  have e3 : (d ++ ['/']).reverse = '/' :: d.reverse := by simp
  have hdrop : List.dropWhile (fun c => (c = '/' : Bool)) ('/' :: d.reverse) =
      List.dropWhile (fun c => (c = '/' : Bool)) d.reverse := by
    rw [List.dropWhile_cons]
    simp
  have hdrop2 : List.dropWhile (fun c => (c = '/' : Bool)) d.reverse =
      d.reverse := by
    rw [hrev, List.dropWhile_cons, if_neg (by simpa using hx)]
  rw [e3, hdrop, hdrop2, List.reverse_reverse]

theorem cleanSeg_iff (s : List Char) :
    cleanSeg s = true ↔ s ≠ [] ∧ s ≠ ['.'] ∧ s ≠ ['.', '.'] := by
  simp [cleanSeg, and_assoc]

theorem cleanSeg_of_long (s : List Char) (h : 3 ≤ s.length) :
    cleanSeg s = true := by
  rw [cleanSeg_iff]
  refine ⟨?_, ?_, ?_⟩ <;> intro he <;> subst he <;> simp at h

theorem joinSegs_facts (init : List (List Char)) (hne : init ≠ [])
    (hclean : ∀ s ∈ init, s ≠ [] ∧ ∀ c ∈ s, c ≠ '/') :
    joinSegs init ≠ [] ∧ (joinSegs init).getLast? ≠ some '/' ∧
    (joinSegs init).head? ≠ some '/' := by
  induction init with
  | nil => exact absurd rfl hne
  | cons s rest ih =>
    obtain ⟨hs1, hs2⟩ := hclean s (List.mem_cons_self s rest)
    cases rest with
    | nil =>
      refine ⟨hs1, ?_, ?_⟩
      · show (joinSegs [s]).getLast? ≠ some '/'
        rw [joinSegs_single]
        intro hc
        exact hs2 '/' (List.mem_of_getLast?_eq_some hc) rfl
      · show (joinSegs [s]).head? ≠ some '/'
        rw [joinSegs_single]
        intro hc
        exact hs2 '/' (List.mem_of_mem_head? (Option.mem_def.mpr hc)) rfl
    | cons t ts =>
      obtain ⟨ih1, ih2, ih3⟩ := ih (by simp)
        (fun u hu => hclean u (List.mem_cons_of_mem s hu))
      rw [joinSegs_cons]
      refine ⟨by simp, ?_, ?_⟩
      · rw [List.getLast?_append_cons]
        have e : '/' :: joinSegs (t :: ts) = ['/'] ++ joinSegs (t :: ts) := rfl
        rw [e, List.getLast?_append_of_ne_nil ['/'] ih1]
        exact ih2
      · rw [List.head?_append_of_ne_nil s hs1]
        intro hc
        exact hs2 '/' (List.mem_of_mem_head? (Option.mem_def.mpr hc)) rfl

theorem dirname_clean (r : List Char) (h : (splitSlash r).all cleanSeg = true) :
    dirnameL r = [] ∨
    (dirnameL r ≠ [] ∧ (dirnameL r).head? ≠ some '/' ∧
     (dirnameL r).getLast? ≠ some '/' ∧
     (splitSlash (dirnameL r)).all cleanSeg = true) := by
  have hall := List.all_eq_true.mp h
  rcases List.eq_nil_or_concat (splitSlash r) with hnil | ⟨init, lastSeg, hconcat⟩
  · exact absurd hnil (splitSlash_ne_nil r)
  rw [List.concat_eq_append] at hconcat
  have hr : r = joinSegs (init ++ [lastSeg]) := by
    rw [← hconcat, joinSegs_splitSlash]
  have hlastfree : ∀ c ∈ lastSeg, c ≠ '/' := by
    intro c hcs hceq
    exact mem_splitSlash_no_slash r lastSeg
      (by rw [hconcat]; exact List.mem_append_right _ (by simp)) (hceq ▸ hcs)
  cases hinit : init with
  | nil =>
    left
    subst hinit
    have hr2 : r = lastSeg := by rw [hr, List.nil_append, joinSegs_single]
    rw [hr2]
    exact dirnameL_no_slash lastSeg hlastfree
  | cons i0 irest =>
    right
    have hinitne : init ≠ [] := by rw [hinit]; simp
    have hclean2 : ∀ s ∈ init, s ≠ [] ∧ ∀ c ∈ s, c ≠ '/' := by
      intro s hs
      have hmem : s ∈ splitSlash r := by
        rw [hconcat]
        exact List.mem_append_left _ hs
      have hc := hall s hmem
      refine ⟨((cleanSeg_iff s).mp hc).1, ?_⟩
      intro c hcs hceq
      exact mem_splitSlash_no_slash r s hmem (hceq ▸ hcs)
    obtain ⟨hd1, hd2, hd3⟩ := joinSegs_facts init hinitne hclean2
    have hrd : r = joinSegs init ++ '/' :: lastSeg := by
      rw [hr, joinSegs_concat init lastSeg hinitne]
    have hdir : dirnameL r = joinSegs init := by
      rw [hrd]
      exact dirnameL_concat _ _ hd1 hd2 hlastfree
    refine ⟨by rw [hdir]; exact hd1, by rw [hdir]; exact hd3,
      by rw [hdir]; exact hd2, ?_⟩
    rw [hdir, splitSlash_joinSegs init hinitne (fun s hs => (hclean2 s hs).2)]
    rw [List.all_eq_true]
    intro s hs
    exact hall s (by rw [hconcat]; exact List.mem_append_left _ hs)

theorem sanitizeStemL_allowed (s : List Char) (c : Char)
    (hc : c ∈ sanitizeStemL s) : isAllowedChar c = true := by
  unfold sanitizeStemL at hc
  rcases List.mem_map.mp hc with ⟨a, _, ha2⟩
  by_cases h : isAllowedChar a = true
  · rw [if_pos h] at ha2
    rw [← ha2]
    exact h
  · rw [if_neg h] at ha2
    rw [← ha2]
    decide

theorem allowed_ne_slash (c : Char) (hc : isAllowedChar c = true) : c ≠ '/' := by
  intro he
  subst he
  exact absurd hc (by decide)

theorem head_ne_slash (l : List Char) (_h1 : l ≠ []) (h2 : ∀ c ∈ l, c ≠ '/') :
    l.head? ≠ some '/' := by
  intro hc
  exact h2 '/' (List.mem_of_mem_head? (Option.mem_def.mpr hc)) rfl

theorem safeBaseName_facts (rel u : String)
    (hu : u.data.all isAllowedChar = true) :
    (safeBaseName rel u).data ≠ [] ∧
    ∀ c ∈ (safeBaseName rel u).data, isAllowedChar c = true := by
  unfold safeBaseName
  dsimp only
  split
  · constructor
    · rw [String.data_append]
      intro hnil
      exact absurd (List.append_eq_nil.mp hnil).1 (by decide)
    · intro c hc
      rw [String.data_append] at hc
      rcases List.mem_append.mp hc with h1 | h1
      · have hlit : ∀ c ∈ "sanitized_".data, isAllowedChar c = true := by decide
        exact hlit c h1
      · exact List.all_eq_true.mp hu c h1
  · next hst =>
    constructor
    · intro hd
      exact hst (congrArg String.mk hd)
    · intro c hc
      exact sanitizeStemL_allowed _ c hc

theorem ext_facts (ext : String)
    (h : ext ∈ ([".gif", ".mp4", ".m4a", ".jpg", ".jpeg", ".png", ".webp",
      ".bmp"] : List String)) :
    ext.data ≠ [] ∧ (∀ c ∈ ext.data, c ≠ '/') ∧ 3 ≤ ext.data.length := by
  fin_cases h <;> exact ⟨by decide, by decide, by decide⟩

theorem safeName_props (rel u ext : String)
    (hu : u.data.all isAllowedChar = true)
    (hext : ext ∈ ([".gif", ".mp4", ".m4a", ".jpg", ".jpeg", ".png", ".webp",
      ".bmp"] : List String)) :
    (safeBaseName rel u ++ ext).data ≠ [] ∧
    (∀ c ∈ (safeBaseName rel u ++ ext).data, c ≠ '/') ∧
    cleanSeg (safeBaseName rel u ++ ext).data = true := by
  obtain ⟨hb1, hb2⟩ := safeBaseName_facts rel u hu
  obtain ⟨he1, he2, he3⟩ := ext_facts ext hext
  rw [String.data_append]
  refine ⟨?_, ?_, ?_⟩
  · intro hnil
    exact hb1 (List.append_eq_nil.mp hnil).1
  · intro c hc
    rcases List.mem_append.mp hc with h1 | h1
    · exact allowed_ne_slash c (hb2 c h1)
    · exact he2 c h1
  · apply cleanSeg_of_long
    rw [List.length_append]
    omega

theorem pyJoinL_sep (a b : List Char) (hb : b.head? ≠ some '/')
    (ha1 : a ≠ []) (ha2 : a.getLast? ≠ some '/') :
    pyJoinL a b = a ++ '/' :: b := by
  unfold pyJoinL
  rw [if_neg hb, if_neg (fun hor => hor.elim ha1 ha2)]

theorem pyJoinL_after_slash (a b : List Char) (hb : b.head? ≠ some '/')
    (ha : a.getLast? = some '/') :
    pyJoinL a b = a ++ b := by
  unfold pyJoinL
  rw [if_neg hb, if_pos (Or.inr ha)]

theorem resolved_splitSlash (rel u ext : String)
    (hclean : cleanRel rel = true)
    (hnm1 : (safeBaseName rel u ++ ext).data ≠ [])
    (hnm2 : ∀ c ∈ (safeBaseName rel u ++ ext).data, c ≠ '/') :
    splitSlash (resolvedOutputPath rel u ext).data =
      [[], "app".data, "output".data] ++
      (if dirnameL rel.data = [] then []
       else splitSlash (dirnameL rel.data)) ++
      [(safeBaseName rel u ++ ext).data] := by
  have hOUTne : OUTPUT_DIR.data ≠ [] := by decide
  have hOUTlast : OUTPUT_DIR.data.getLast? ≠ some '/' := by decide
  have hsplitOUT : splitSlash OUTPUT_DIR.data =
      [[], "app".data, "output".data] := by decide
  have hnmhead := head_ne_slash _ hnm1 hnm2
  have hout : (resolvedOutputPath rel u ext).data =
      pyJoinL (pyJoinL OUTPUT_DIR.data (dirnameL rel.data))
        (safeBaseName rel u ++ ext).data := rfl
  rw [hout]
  rcases dirname_clean rel.data hclean with hd0 | ⟨hd1, hd2, hd3, _⟩
  · rw [hd0, if_pos rfl]
    rw [pyJoinL_sep OUTPUT_DIR.data [] (by simp) hOUTne hOUTlast]
    rw [pyJoinL_after_slash _ _ hnmhead (by
      rw [List.getLast?_append_of_ne_nil OUTPUT_DIR.data (by simp)]
      rfl)]
    have e : (OUTPUT_DIR.data ++ '/' :: []) ++ (safeBaseName rel u ++ ext).data =
        OUTPUT_DIR.data ++ '/' :: (safeBaseName rel u ++ ext).data := by simp
    rw [e, splitSlash_append, hsplitOUT, splitSlash_no_slash _ hnm2]
    simp
  · rw [if_neg hd1]
    rw [pyJoinL_sep OUTPUT_DIR.data (dirnameL rel.data) hd2 hOUTne hOUTlast]
    rw [pyJoinL_sep _ _ hnmhead (by simp) (by
      rw [List.getLast?_append_cons]
      have e : '/' :: dirnameL rel.data = ['/'] ++ dirnameL rel.data := rfl
      rw [e, List.getLast?_append_of_ne_nil ['/'] hd1]
      exact hd3)]
    have e2 : (OUTPUT_DIR.data ++ '/' :: dirnameL rel.data) ++
        '/' :: (safeBaseName rel u ++ ext).data =
        OUTPUT_DIR.data ++
          '/' :: (dirnameL rel.data ++ '/' :: (safeBaseName rel u ++ ext).data) := by
      simp
    rw [e2, splitSlash_append, hsplitOUT, splitSlash_append,
      splitSlash_no_slash _ hnm2]
    simp

theorem normStack_append (A B stack : List (List Char)) :
    normStack stack (A ++ B) = normStack (normStack stack A) B := by
  induction A generalizing stack with
  | nil => rfl
  | cons s rest ih =>
    rw [List.cons_append]
    simp only [normStack]
    split_ifs <;> exact ih _

theorem normStack_clean (segs stack : List (List Char))
    (h : ∀ s ∈ segs, cleanSeg s = true) :
    normStack stack segs = stack ++ segs := by
  induction segs generalizing stack with
  | nil => simp [normStack]
  | cons s rest ih =>
    obtain ⟨h1, h2, h3⟩ := (cleanSeg_iff s).mp (h s (by simp))
    simp only [normStack]
    rw [if_neg (fun hor => hor.elim h1 h2), if_neg h3,
      ih _ (fun u hu => h u (List.mem_cons_of_mem s hu))]
    simp

theorem imageExtChoice_mem8 (b : String) :
    imageExtChoice b ∈ ([".gif", ".mp4", ".m4a", ".jpg", ".jpeg", ".png",
      ".webp", ".bmp"] : List String) := by
  unfold imageExtChoice
  dsimp only
  split
  · next hcon =>
    simp [List.contains] at hcon
    rcases hcon with h | h | h | h | h <;> rw [h] <;> decide
  · decide

theorem outputPath_resolved (rel : String) (env : FileEnv) (st : Stats)
    (p : String) (h : (process_file rel env st).outputPath = some p) :
    ∃ ext : String,
      p = resolvedOutputPath rel env.uuid8 ext ∧
      ext ∈ ([".gif", ".mp4", ".m4a", ".jpg", ".jpeg", ".png", ".webp",
        ".bmp"] : List String) := by
  by_cases hdir : env.isDir = true
  · simp [process_file, hdir] at h
  · have hdir' : env.isDir = false := by
      revert hdir
      cases env.isDir <;> simp
    by_cases hsz : env.sizeBytes > MAX_FILE_SIZE_BYTES
    · simp [process_file, hdir', hsz] at h
    · cases hm : env.mime with
      | none => simp [process_file, hdir', hsz, hm] at h
      | some mime =>
        rcases categorize_cases mime with hc | hc | hc | hc | hc
        · refine ⟨".gif", ?_, by decide⟩
          simp [process_file, hdir', hsz, hm, hc] at h
          exact h.symm
        · refine ⟨".mp4", ?_, by decide⟩
          simp [process_file, hdir', hsz, hm, hc] at h
          exact h.symm
        · refine ⟨".m4a", ?_, by decide⟩
          simp [process_file, hdir', hsz, hm, hc] at h
          exact h.symm
        · refine ⟨imageExtChoice (pyBasename rel), ?_,
            imageExtChoice_mem8 (pyBasename rel)⟩
          simp [process_file, hdir', hsz, hm, hc] at h
          exact h.symm
        · simp [process_file, hdir', hsz, hm, hc] at h

theorem inside_of_resolved (rel u ext : String)
    (hclean : cleanRel rel = true)
    (hu : u.data.all isAllowedChar = true)
    (hext : ext ∈ ([".gif", ".mp4", ".m4a", ".jpg", ".jpeg", ".png", ".webp",
      ".bmp"] : List String)) :
    insideOutputRoot (resolvedOutputPath rel u ext) = true := by
  obtain ⟨hnm1, hnm2, hnm3⟩ := safeName_props rel u ext hu hext
  unfold insideOutputRoot normalizeAbs
  rw [resolved_splitSlash rel u ext hclean hnm1 hnm2]
  rw [show outputRootSegs = ["app".data, "output".data] from by decide]
  by_cases hD : dirnameL rel.data = []
  · rw [if_pos hD, List.append_nil]
    rw [normStack_append,
      show normStack [] [[], "app".data, "output".data] =
        ["app".data, "output".data] from by decide,
      normStack_clean [(safeBaseName rel u ++ ext).data] _ (by
        intro s hs
        simp at hs
        rw [hs]
        exact hnm3)]
    exact List.isPrefixOf_iff_prefix.mpr (List.prefix_append _ _)
  · rcases dirname_clean rel.data hclean with hd0 | ⟨_, _, _, hd4⟩
    · exact absurd hd0 hD
    rw [if_neg hD, List.append_assoc, normStack_append,
      show normStack [] [[], "app".data, "output".data] =
        ["app".data, "output".data] from by decide,
      normStack_clean _ _ (by
        intro s hs
        rcases List.mem_append.mp hs with h1 | h1
        · exact List.all_eq_true.mp hd4 s h1
        · simp at h1
          rw [h1]
          exact hnm3)]
    exact List.isPrefixOf_iff_prefix.mpr (List.prefix_append _ _)

/-- C1 amended: for every relative path of the shape the enumerator
produces - no empty, dot, or dot-dot segments - the resolved output
path lies inside the output root.  The resolver itself performs no
rejection or neutralization of dot-dot or absolute paths, so a crafted
relative path escapes (see the counterexample). -/
theorem c1_amended_inside_for_clean_paths :
    ∀ (rel : String) (env : FileEnv) (st : Stats) (p : String),
      cleanRel rel = true →
      env.uuid8.data.all isAllowedChar = true →
      (process_file rel env st).outputPath = some p →
      insideOutputRoot p = true := by
  intro rel env st p hclean hu h
  obtain ⟨ext, hp, hext⟩ := outputPath_resolved rel env st p h
  rw [hp]
  exact inside_of_resolved rel env.uuid8 ext hclean hu hext

theorem c1_amended_inside_for_clean_paths_witness :
    insideOutputRoot "/app/output/a/x.gif" = true :=
  c1_amended_inside_for_clean_paths "a/x.gif" quickGifEnv Stats.init
    "/app/output/a/x.gif" (by decide) (by decide) (by decide)

/-- C5 amended: tasks whose relative paths are clean and lie in
distinct relative directories never resolve to the same output path;
within one directory, collisions are possible when the sanitized stems
and chosen extensions coincide (see the counterexample). -/
theorem c5_amended_distinct_dirs_no_collision :
    ∀ (rel1 rel2 : String) (env1 env2 : FileEnv) (st1 st2 : Stats)
      (p1 p2 : String),
      cleanRel rel1 = true → cleanRel rel2 = true →
      env1.uuid8.data.all isAllowedChar = true →
      env2.uuid8.data.all isAllowedChar = true →
      pyDirname rel1 ≠ pyDirname rel2 →
      (process_file rel1 env1 st1).outputPath = some p1 →
      (process_file rel2 env2 st2).outputPath = some p2 →
      p1 ≠ p2 := by
  intro rel1 rel2 env1 env2 st1 st2 p1 p2 hc1 hc2 hu1 hu2 hdir h1 h2 heq
  obtain ⟨e1, hp1, he1⟩ := outputPath_resolved rel1 env1 st1 p1 h1
  obtain ⟨e2, hp2, he2⟩ := outputPath_resolved rel2 env2 st2 p2 h2
  obtain ⟨hn11, hn12, _⟩ := safeName_props rel1 env1.uuid8 e1 hu1 he1
  obtain ⟨hn21, hn22, _⟩ := safeName_props rel2 env2.uuid8 e2 hu2 he2
  have hsplit : splitSlash p1.data = splitSlash p2.data := by rw [heq]
  rw [hp1, hp2, resolved_splitSlash rel1 _ _ hc1 hn11 hn12,
    resolved_splitSlash rel2 _ _ hc2 hn21 hn22] at hsplit
  have h5 := List.append_inj_left' hsplit (by simp)
  have hD := List.append_cancel_left h5
  by_cases hd1 : dirnameL rel1.data = [] <;>
    by_cases hd2 : dirnameL rel2.data = []
  · exact hdir (by unfold pyDirname; rw [hd1, hd2])
  · rw [if_pos hd1, if_neg hd2] at hD
    exact splitSlash_ne_nil _ hD.symm
  · rw [if_neg hd1, if_pos hd2] at hD
    exact splitSlash_ne_nil _ hD
  · rw [if_neg hd1, if_neg hd2] at hD
    have hdd : dirnameL rel1.data = dirnameL rel2.data := by
      rw [← joinSegs_splitSlash (dirnameL rel1.data), hD, joinSegs_splitSlash]
    exact hdir (by unfold pyDirname; rw [hdd])

theorem c5_amended_distinct_dirs_no_collision_witness :
    ("/app/output/a/x.jpg" : String) ≠ "/app/output/b/x.jpg" :=
  c5_amended_distinct_dirs_no_collision "a/x.jpg" "b/x.jpg"
    smallJpegEnv smallJpegEnv Stats.init Stats.init
    "/app/output/a/x.jpg" "/app/output/b/x.jpg"
    (by decide) (by decide) (by decide) (by decide) (by decide)
    (by decide) (by decide)
